import Mathlib

/-!
Verification of the data-normalization and aggregation pipeline of the
clinic-meetings dashboard (src/app.py).  The pipeline is embedded shallowly:
a pandas DataFrame becomes a list of records, Series operations become list
operations, and the pandas behaviours the code relies on (strict strptime
parsing, dict-map with NaN for missing keys, pd.cut with right=False,
value_counts over a categorical, groupby with default key sorting,
boolean-mask filtering) are translated into executable Lean functions.
-/

/-- One row of the input table, after the normalization of app.py lines
25-27 (nombre_crm and clinica trimmed, mes lower-cased and trimmed).  All
six CSV columns are strings. -/
structure MeetingRecord where
  nombre_crm : String
  clinica : String
  mes : String
  fecha : String
  Hora : String
  email_crm : String
deriving DecidableEq, Repr

/-- The month-ordinal dictionary meses_orden of app.py lines 34-36:
septiembre maps to 9, octubre to 10, noviembre to 11, diciembre to 12 and
enero to 1.  Series.map over a dict yields NaN for keys outside it,
modelled as none. -/
def meses_orden (m : String) : Option Nat :=
  if m = "septiembre" then some 9
  else if m = "octubre" then some 10
  else if m = "noviembre" then some 11
  else if m = "diciembre" then some 12
  else if m = "enero" then some 1
  else none

/-- The mes_num column of app.py line 37. -/
def mes_num (r : MeetingRecord) : Option Nat :=
  meses_orden r.mes

/-- Split of a character sequence at every occurrence of a separator, the
behaviour of str splitting on a one-character separator. -/
def splitOnChar (sep : Char) : List Char → List (List Char)
  | [] => [[]]
  | c :: rest =>
    if c = sep then [] :: splitOnChar sep rest
    else
      match splitOnChar sep rest with
      | [] => [[c]]
      | g :: gs => (c :: g) :: gs

/-- Numeric value of a sequence of decimal digits. -/
def digitsVal (cs : List Char) : Nat :=
  cs.foldl (fun acc c => acc * 10 + (c.toNat - 48)) 0

/-- One strptime numeric field: one or two decimal digits whose value is at
most bound, as CPython strptime matches %H, %M, %S and %d. -/
def strptimeField (cs : List Char) (bound : Nat) : Option Nat :=
  if 1 ≤ cs.length ∧ cs.length ≤ 2 ∧ cs.all Char.isDigit then
    if digitsVal cs ≤ bound then some (digitsVal cs) else none
  else none

/-- Strict parse of a time string against the format %H:%M:%S, as
pd.to_datetime with an explicit format does at app.py lines 30-31: the whole
string must match (exact=True), with hour at most 23, minute at most 59 and
second at most 61 (CPython strptime bounds). -/
def strptimeHMS (s : String) : Option (Nat × Nat × Nat) :=
  match splitOnChar ':' s.data with
  | [h, m, sec] =>
    match strptimeField h 23, strptimeField m 59, strptimeField sec 61 with
    | some hn, some mn, some sn => some (hn, mn, sn)
    | _, _, _ => none
  | _ => none

/-- The Hora_num column of app.py line 31: the hour component of the parsed
time. -/
def hora_num (r : MeetingRecord) : Option Nat :=
  (strptimeHMS r.Hora).map (fun t => t.1)

/-- Table-level time parsing of app.py lines 30-31: pd.to_datetime with the
default errors equal to raise throws on the first value failing the format,
aborting the whole load with no partial result; on success every row yields
its hour. -/
def parse_horas : List MeetingRecord → Except String (List Nat)
  | [] => Except.ok []
  | r :: rs =>
    match strptimeHMS r.Hora with
    | some t =>
      match parse_horas rs with
      | Except.ok hs => Except.ok (t.1 :: hs)
      | Except.error e => Except.error e
    | none => Except.error r.Hora

/-- The six time-band labels of app.py line 138, listed in the fixed bucket
order 8-10, 10-12, 12-14, 14-16, 16-18, 18-20. -/
inductive Franja where
  | f8_10
  | f10_12
  | f12_14
  | f14_16
  | f16_18
  | f18_20
deriving DecidableEq, Repr

/-- All band labels in the categorical order pd.cut assigns them. -/
def allFranjas : List Franja :=
  [.f8_10, .f10_12, .f12_14, .f14_16, .f16_18, .f18_20]

/-- pd.cut of the Hora_num column with bins [8,10,12,14,16,18,20] and
right=False (app.py lines 137-140): buckets are left-closed and right-open,
and a value below 8 or at 20 and above falls in no bucket (NaN, modelled as
none). -/
def franja_horaria (h : Nat) : Option Franja :=
  if 8 ≤ h ∧ h < 10 then some .f8_10
  else if 10 ≤ h ∧ h < 12 then some .f10_12
  else if 12 ≤ h ∧ h < 14 then some .f12_14
  else if 14 ≤ h ∧ h < 16 then some .f14_16
  else if 16 ≤ h ∧ h < 18 then some .f16_18
  else if 18 ≤ h ∧ h < 20 then some .f18_20
  else none

/-- Number of hours of the table landing in one band. -/
def countFranja (hs : List Nat) (b : Franja) : Nat :=
  (hs.filter (fun h => franja_horaria h = some b)).length

/-- The franjas Series of app.py line 142: value_counts().sort_index() on
the categorical band column.  value_counts over a categorical keeps every
category, zero counts included, drops NaN, and sort_index orders the six
entries by the categorical (bucket) order. -/
def franjas (hs : List Nat) : List (Franja × Nat) :=
  allFranjas.map (fun b => (b, countFranja hs b))

/-- Series.idxmin (app.py line 172): the first index whose value is the
minimum of the series; none only for an empty series. -/
def idxminFranja (l : List (Franja × Nat)) : Option Franja :=
  match (l.map Prod.snd).min? with
  | none => none
  | some m => (l.find? (fun p => p.2 = m)).map Prod.fst

/-- The franja_menos statistic of app.py line 172. -/
def franja_menos (hs : List Nat) : Option Franja :=
  idxminFranja (franjas hs)

/-- Code-point lexicographic comparison of character sequences, the order
Python uses to compare str values and hence the order pandas sorts string
group keys by. -/
def charsLe : List Char → List Char → Bool
  | [], _ => true
  | _ :: _, [] => false
  | a :: as, b :: bs =>
    if a < b then true else if b < a then false else charsLe as bs

/-- Python string comparison, as a relation on String. -/
def strLe (a b : String) : Prop :=
  charsLe a.data b.data = true

instance decStrLe : DecidableRel strLe := fun a b =>
  inferInstanceAs (Decidable (charsLe a.data b.data = true))

/-- The group keys of df_filtrado.groupby(mes) at app.py line 76: pandas
groupby with its default sort=True lists each distinct key once, in
ascending (code-point lexicographic, for strings) order. -/
def groupKeys (rows : List MeetingRecord) : List String :=
  List.insertionSort strLe (rows.map (fun r => r.mes)).dedup

/-- reuniones_por_mes (app.py lines 76-79): groupby(mes) followed by a count
aggregation — one (month, count) row per distinct month, keys in the pandas
default sorted order, the count being the number of rows of that month. -/
def reuniones_por_mes (rows : List MeetingRecord) : List (String × Nat) :=
  (groupKeys rows).map (fun m => (m, (rows.filter (fun r => r.mes = m)).length))

/-- The month filter of app.py lines 55-58: a selection other than the
sentinel keeps exactly the rows whose mes equals it (boolean-mask indexing);
the sentinel selection yields df.copy(), the whole table with identical
content. -/
def df_filtrado (rows : List MeetingRecord) (sel : String) : List MeetingRecord :=
  if sel ≠ "Todos los meses" then rows.filter (fun r => r.mes = sel) else rows

/-- Key comparison of df.sort_values(mes_num) at app.py line 38 with the
pandas default na_position=last: numeric keys compare as numbers and a NaN
key sorts after every numeric key. -/
def sortKeyLe (a b : MeetingRecord) : Bool :=
  match mes_num a, mes_num b with
  | some x, some y => x ≤ y
  | some _, none => true
  | none, some _ => false
  | none, none => true

/-- The row order induced by the mes_num sort key. -/
def rowLe (a b : MeetingRecord) : Prop :=
  sortKeyLe a b = true

instance decRowLe : DecidableRel rowLe := fun a b =>
  inferInstanceAs (Decidable (sortKeyLe a b = true))

/-- df.sort_values(mes_num) at app.py line 38, by the properties pandas
guarantees: the output is a permutation of the input, ascending by mes_num
with NaN keys placed last.  It is realized here with insertion sort; the
relative order of rows with equal keys is not part of the pandas contract
(the default kind is an unstable quicksort). -/
def load_sorted (rows : List MeetingRecord) : List MeetingRecord :=
  List.insertionSort rowLe rows

/-- The strict order the code's ordinal table puts on month names: both
months are in the table and the first ordinal is smaller. -/
def mesLt (a b : String) : Prop :=
  ∃ x y, meses_orden a = some x ∧ meses_orden b = some y ∧ x < y

/-- Leap-year test used by the calendar validation of date parsing. -/
def bisiesto (y : Nat) : Bool :=
  (y % 4 = 0 && y % 100 != 0) || y % 400 = 0

/-- Days of a month, for the calendar validation pd.to_datetime performs. -/
def diasMes (m y : Nat) : Nat :=
  if m = 2 then (if bisiesto y then 29 else 28)
  else if m = 4 ∨ m = 6 ∨ m = 9 ∨ m = 11 then 30
  else 31

/-- A strptime %Y field: up to four decimal digits. -/
def strptimeYear (cs : List Char) : Option Nat :=
  if 1 ≤ cs.length ∧ cs.length ≤ 4 ∧ cs.all Char.isDigit then some (digitsVal cs)
  else none

/-- Strict parse of a date string against %d/%m/%Y with calendar validation,
as pd.to_datetime does at app.py line 197; yields (day, month, year). -/
def parseFecha (s : String) : Option (Nat × Nat × Nat) :=
  match splitOnChar '/' s.data with
  | [d, m, y] =>
    match strptimeField d 31, strptimeField m 12, strptimeYear y with
    | some dn, some mn, some yn =>
      if 1 ≤ dn ∧ 1 ≤ mn ∧ dn ≤ diasMes mn yn then some (dn, mn, yn) else none
    | _, _, _ => none
  | _ => none

/-- A row of a derived frame: the base record plus the two columns the
dashboard assigns to df_filtrado (app.py lines 140 and 197). -/
structure ExtRecord where
  base : MeetingRecord
  franja : Option Franja
  dia : Option Nat
deriving DecidableEq, Repr

/-- The two frames alive during a rendering cycle: the cached base frame df
and the filtered frame df_filtrado.  Boolean-mask selection df[mask] and
df.copy() both produce a fresh frame, so later column assignments to
df_filtrado write only to the filtered frame, never to df. -/
structure DashState where
  df : List MeetingRecord
  filtrado : List ExtRecord
deriving DecidableEq, Repr

/-- State after the filtering of app.py lines 55-58: the base frame is kept
and the filtered frame holds the selected rows, with no derived columns
yet. -/
def initState (rows : List MeetingRecord) (sel : String) : DashState :=
  { df := rows
    filtrado := (df_filtrado rows sel).map (fun r => ⟨r, none, none⟩) }

/-- Column assignment of app.py line 140: df_filtrado gains the
franja_horaria column derived from its own Hora_num values. -/
def addFranja (s : DashState) : DashState :=
  { s with
    filtrado := s.filtrado.map
      (fun e => { e with franja := (hora_num e.base).bind franja_horaria }) }

/-- Column assignment of app.py line 197: df_filtrado gains the dia column
derived from its own fecha values. -/
def addDia (s : DashState) : DashState :=
  { s with
    filtrado := s.filtrado.map
      (fun e => { e with dia := (parseFecha e.base.fecha).map (fun t => t.1) }) }

/-- The rendering-cycle pipeline on the two frames: filter by month, then
derive the time band, then derive the day of month. -/
def runPipeline (rows : List MeetingRecord) (sel : String) : DashState :=
  addDia (addFranja (initState rows sel))

/-- The three-record scenario table of spec section 8; only the mes and Hora
fields are significant. -/
def scenarioRows : List MeetingRecord :=
  [ ⟨"", "", "enero", "", "09:15:00", ""⟩,
    ⟨"", "", "septiembre", "", "14:05:00", ""⟩,
    ⟨"", "", "enero", "", "09:45:00", ""⟩ ]

/-- A record whose month is outside the fixed vocabulary. -/
def febRow : MeetingRecord :=
  ⟨"", "", "febrero", "01/02/2025", "10:00:00", ""⟩

/-! ### Order facts about the embedded comparisons -/

lemma charsLe_total : ∀ x y : List Char, charsLe x y = true ∨ charsLe y x = true := by
  intro x
  induction x with
  | nil => intro y; left; rfl
  | cons a as ih =>
    intro y
    cases y with
    | nil => right; rfl
    | cons b bs =>
      by_cases hab : a < b
      · left; simp [charsLe, hab]
      · by_cases hba : b < a
        · right; simp [charsLe, hba]
        · rcases ih bs with h | h
          · left; simp [charsLe, hab, hba, h]
          · right; simp [charsLe, hab, hba, h]

lemma charsLe_trans :
    ∀ x y z : List Char, charsLe x y = true → charsLe y z = true → charsLe x z = true := by
  intro x
  induction x with
  | nil => intro y z _ _; rfl
  | cons a as ih =>
    intro y z hxy hyz
    cases y with
    | nil => simp [charsLe] at hxy
    | cons b bs =>
      cases z with
      | nil => simp [charsLe] at hyz
      | cons c cs =>
        by_cases hab : a < b
        · by_cases hbc : b < c
          · simp [charsLe, lt_trans hab hbc]
          · by_cases hcb : c < b
            · simp [charsLe, hbc, hcb] at hyz
            · have hbc2 : b = c := le_antisymm (not_lt.mp hcb) (not_lt.mp hbc)
              subst hbc2
              simp [charsLe, hab]
        · by_cases hba : b < a
          · simp [charsLe, hab, hba] at hxy
          · have hab2 : a = b := le_antisymm (not_lt.mp hba) (not_lt.mp hab)
            subst hab2
            simp only [charsLe, if_neg hab, if_neg hba] at hxy
            by_cases hbc : a < c
            · simp [charsLe, hbc]
            · by_cases hcb : c < a
              · simp [charsLe, hbc, hcb] at hyz
              · simp only [charsLe, if_neg hbc, if_neg hcb] at hyz ⊢
                exact ih bs cs hxy hyz

instance : IsTotal String strLe :=
  ⟨fun a b => charsLe_total a.data b.data⟩

instance : IsTrans String strLe :=
  ⟨fun a b c => charsLe_trans a.data b.data c.data⟩

lemma rowLe_total : ∀ a b : MeetingRecord, rowLe a b ∨ rowLe b a := by
  intro a b
  unfold rowLe sortKeyLe
  cases mes_num a <;> cases mes_num b <;> simp
  omega

lemma rowLe_trans : ∀ a b c : MeetingRecord, rowLe a b → rowLe b c → rowLe a c := by
  intro a b c
  unfold rowLe sortKeyLe
  cases mes_num a <;> cases mes_num b <;> cases mes_num c <;> simp
  all_goals omega

instance : IsTotal MeetingRecord rowLe := ⟨rowLe_total⟩

instance : IsTrans MeetingRecord rowLe := ⟨fun a b c => rowLe_trans a b c⟩

/-! ### Claim theorems -/

/-- C1 (code bug): the specified ordinal table has enero strictly above
septiembre (9 < 13), so septiembre sorts before enero across the year
boundary; the code's table meses_orden (app.py line 35) instead maps enero
to 1, so the code orders enero strictly before septiembre, against its own
comment that the sort is chronological for the september-to-january
cycle. -/
theorem C1_meses_orden_enero_bug :
    meses_orden "enero" = some 1 ∧
    meses_orden "septiembre" = some 9 ∧
    mesLt "enero" "septiembre" ∧
    ¬ mesLt "septiembre" "enero" := by
  refine ⟨rfl, rfl, ⟨1, 9, rfl, rfl, by omega⟩, ?_⟩
  rintro ⟨x, y, hx, hy, hlt⟩
  have hx9 : x = 9 := by
    have := hx
    simp [meses_orden] at this
    omega
  have hy1 : y = 1 := by
    have := hy
    simp [meses_orden] at this
    omega
  omega

lemma franja_outside (h : Nat) (hh : h < 8 ∨ 20 ≤ h) : franja_horaria h = none := by
  unfold franja_horaria
  split_ifs <;> first | rfl | omega

/-- C5: the Time Bander is a total function of the hour with half-open
buckets: each of the hours 8, 10, 12, 14, 16 and 18 falls in the bucket it
opens, and every hour below 8 or at 20 and above gets no band. -/
theorem C5_franjas_semiabiertas :
    franja_horaria 8 = some Franja.f8_10 ∧
    franja_horaria 10 = some Franja.f10_12 ∧
    franja_horaria 12 = some Franja.f12_14 ∧
    franja_horaria 14 = some Franja.f14_16 ∧
    franja_horaria 16 = some Franja.f16_18 ∧
    franja_horaria 18 = some Franja.f18_20 ∧
    ∀ h : Nat, h < 8 ∨ 20 ≤ h → franja_horaria h = none :=
  ⟨rfl, rfl, rfl, rfl, rfl, rfl, fun h hh => franja_outside h hh⟩

/-- Instance of C5 at the concrete out-of-range hours 7, 20 and 23. -/
theorem C5_franjas_semiabiertas_witness :
    franja_horaria 7 = none ∧ franja_horaria 20 = none ∧ franja_horaria 23 = none :=
  ⟨C5_franjas_semiabiertas.2.2.2.2.2.2 7 (Or.inl (by omega)),
   C5_franjas_semiabiertas.2.2.2.2.2.2 20 (Or.inr (by omega)),
   C5_franjas_semiabiertas.2.2.2.2.2.2 23 (Or.inr (by omega))⟩

/-- C9: the base frame is never mutated by the downstream operations: after
filtering, time-band derivation and day derivation, the df component of the
pipeline state is the loaded table, unchanged in every record and field, and
the derived columns live only in the fresh filtered frame, whose base
records are exactly the filtered subset. -/
theorem C9_df_inmutable (rows : List MeetingRecord) (sel : String) :
    (runPipeline rows sel).df = rows ∧
    (runPipeline rows sel).filtrado.map (fun e => e.base) = df_filtrado rows sel := by
  constructor
  · rfl
  · simp only [runPipeline, addDia, addFranja, initState, List.map_map]
    exact List.map_id'' (fun e => rfl) _

/-- C10: the band histogram always has exactly six entries, one per band in
the fixed bucket order, with zero-count bands included; concretely, for the
one-record table with hour 9 the filtered subset is non-empty, band 10-12
has zero meetings, and the band-with-minimum statistic names it. -/
theorem C10_seis_franjas (hs : List Nat) :
    (franjas hs).length = 6 ∧
    (franjas hs).map Prod.fst = allFranjas ∧
    (Franja.f10_12, 0) ∈ franjas [9] ∧
    franja_menos [9] = some Franja.f10_12 ∧
    countFranja [9] Franja.f10_12 = 0 ∧
    ([9] : List Nat).length ≠ 0 := by
  refine ⟨?_, ?_, by decide, by decide, by decide, by decide⟩
  · simp [franjas, allFranjas]
  · simp only [franjas, List.map_map]
    exact List.map_id'' (fun b => rfl) _

/-- C2 (counterexample): on the three-record scenario table the code's
reuniones_por_mes lists enero first, because pandas groupby sorts the group
keys alphabetically, so the output is not the chronologically ordered
sequence the claim states. -/
theorem C2_contraejemplo :
    reuniones_por_mes scenarioRows ≠ [("septiembre", 1), ("enero", 2)] := by
  decide

/-- C2 (amended): reuniones_por_mes returns one entry per distinct month
present in the input, with the correct count, but ordered alphabetically
(code-point lexicographically) by month name, not chronologically; on the
scenario table it returns enero before septiembre. -/
theorem C2_reuniones_por_mes_alfabetico (rows : List MeetingRecord) :
    ((reuniones_por_mes rows).map Prod.fst).Nodup ∧
    (∀ m : String,
      m ∈ (reuniones_por_mes rows).map Prod.fst ↔ m ∈ rows.map (fun r => r.mes)) ∧
    ((reuniones_por_mes rows).map Prod.fst).Sorted strLe ∧
    (∀ p ∈ reuniones_por_mes rows, p.2 = (rows.filter (fun r => r.mes = p.1)).length) ∧
    reuniones_por_mes scenarioRows = [("enero", 2), ("septiembre", 1)] := by
  have hkeys : (reuniones_por_mes rows).map Prod.fst = groupKeys rows := by
    simp only [reuniones_por_mes, List.map_map]
    exact List.map_id'' (fun m => rfl) _
  have hperm : List.Perm (groupKeys rows) ((rows.map (fun r => r.mes)).dedup) :=
    List.perm_insertionSort strLe _
  refine ⟨?_, ?_, ?_, ?_, by decide⟩
  · rw [hkeys]
    exact hperm.symm.nodup (List.nodup_dedup _)
  · intro m
    rw [hkeys]
    rw [hperm.mem_iff, List.mem_dedup]
  · rw [hkeys]
    exact List.sorted_insertionSort strLe _
  · intro p hp
    rcases List.mem_map.mp hp with ⟨m, _, rfl⟩
    rfl

/-- Instance of C2 as amended: on the scenario table the entry for enero
carries count 2, the number of enero records. -/
theorem C2_reuniones_por_mes_alfabetico_witness :
    (2 : Nat) = (scenarioRows.filter (fun r => r.mes = "enero")).length :=
  (C2_reuniones_por_mes_alfabetico scenarioRows).2.2.2.1 ("enero", 2) (by decide)

/-- C7: filtering with a non-sentinel month keeps exactly the rows whose
normalized month equals it (a sublist of the table, every kept row matching,
every matching row kept with its multiplicity), and the sentinel selection
returns the whole table unchanged. -/
theorem C7_filtro_mes (rows : List MeetingRecord) (m : String)
    (hm : m ≠ "Todos los meses") :
    df_filtrado rows "Todos los meses" = rows ∧
    List.Sublist (df_filtrado rows m) rows ∧
    (∀ r ∈ df_filtrado rows m, r.mes = m) ∧
    (∀ r : MeetingRecord, r.mes = m →
      (df_filtrado rows m).count r = rows.count r) := by
  refine ⟨by simp [df_filtrado], ?_, ?_, ?_⟩
  · rw [df_filtrado, if_pos hm]
    exact List.filter_sublist rows
  · intro r hr
    rw [df_filtrado, if_pos hm] at hr
    simpa using (List.mem_filter.mp hr).2
  · intro r hr
    rw [df_filtrado, if_pos hm]
    exact List.count_filter (by simpa using hr)

/-- Instance of C7 at the scenario table with the month enero. -/
theorem C7_filtro_mes_witness :
    df_filtrado scenarioRows "Todos los meses" = scenarioRows ∧
    List.Sublist (df_filtrado scenarioRows "enero") scenarioRows ∧
    (∀ r ∈ df_filtrado scenarioRows "enero", r.mes = "enero") ∧
    (∀ r : MeetingRecord, r.mes = "enero" →
      (df_filtrado scenarioRows "enero").count r = scenarioRows.count r) :=
  C7_filtro_mes scenarioRows "enero" (by decide)

lemma countFranja_cons (h : Nat) (t : List Nat) (b : Franja) :
    countFranja (h :: t) b =
      (if franja_horaria h = some b then 1 else 0) + countFranja t b := by
  simp only [countFranja, List.filter_cons, decide_eq_true_eq]
  split_ifs with hf
  · simp [Nat.add_comm]
  · simp

/-- C6: partition law — the counts of the band histogram plus the number of
records whose hour lies outside the interval from 8 inclusive to 20
exclusive add up to the total number of records. -/
theorem C6_ley_particion (hs : List Nat) :
    ((franjas hs).map Prod.snd).sum
      + (hs.filter (fun h => decide (h < 8 ∨ 20 ≤ h))).length = hs.length := by
  induction hs with
  | nil => rfl
  | cons h t ih =>
    have hsum : ((franjas (h :: t)).map Prod.snd).sum
        = (if 8 ≤ h ∧ h < 20 then 1 else 0) + ((franjas t).map Prod.snd).sum := by
      simp only [franjas, allFranjas, List.map_cons, List.map_nil, List.sum_cons,
        List.sum_nil, countFranja_cons]
      by_cases h8 : h < 8
      · have hf : franja_horaria h = none := franja_outside h (Or.inl h8)
        rw [if_neg (by omega : ¬(8 ≤ h ∧ h < 20))]
        simp [hf]
      · by_cases h20 : h < 20
        · have hge : 8 ≤ h := by omega
          interval_cases h <;> simp [franja_horaria] <;> omega
        · have hf : franja_horaria h = none := franja_outside h (Or.inr (by omega))
          rw [if_neg (by omega : ¬(8 ≤ h ∧ h < 20))]
          simp [hf]
    have hflt : (List.filter (fun x => decide (x < 8 ∨ 20 ≤ x)) (h :: t)).length
        = (if h < 8 ∨ 20 ≤ h then 1 else 0)
          + (List.filter (fun x => decide (x < 8 ∨ 20 ≤ x)) t).length := by
      simp only [List.filter_cons]
      split_ifs with h1 h2 h3
      · simp [Nat.add_comm]
      · exact absurd (of_decide_eq_true h1) h2
      · exact absurd (decide_eq_true h3) h1
      · simp
    rw [hsum, hflt]
    simp only [List.length_cons]
    by_cases hout : h < 8 ∨ 20 ≤ h
    · rw [if_neg (by omega : ¬(8 ≤ h ∧ h < 20)), if_pos hout]
      omega
    · rw [if_pos (by omega : 8 ≤ h ∧ h < 20), if_neg hout]
      omega

/-- C8: the table-level time parse fails exactly when some row's time string
fails the strict HH:MM:SS parse, and the failure is a whole-table abort
yielding an error and no row list; conversely when every row parses, the
load succeeds with one hour per row. -/
theorem C8_hora_estricta (rows : List MeetingRecord) :
    ((∃ r ∈ rows, strptimeHMS r.Hora = none) ↔
      ∃ e, parse_horas rows = Except.error e) ∧
    ((∀ r ∈ rows, strptimeHMS r.Hora ≠ none) →
      ∃ hs, parse_horas rows = Except.ok hs ∧ hs.length = rows.length) := by
  induction rows with
  | nil =>
    refine ⟨?_, fun _ => ⟨[], rfl, rfl⟩⟩
    simp [parse_horas]
  | cons r rs ih =>
    rcases hfr : strptimeHMS r.Hora with _ | t
    · refine ⟨⟨fun _ => ⟨r.Hora, by simp [parse_horas, hfr]⟩, ?_⟩, ?_⟩
      · intro _
        exact ⟨r, List.mem_cons_self r rs, hfr⟩
      · intro hall
        exact absurd hfr (hall r (List.mem_cons_self r rs))
    · refine ⟨⟨?_, ?_⟩, ?_⟩
      · rintro ⟨x, hx, hnone⟩
        rcases List.mem_cons.mp hx with rfl | hx2
        · rw [hfr] at hnone
          exact absurd hnone (by simp)
        · rcases ih.1.mp ⟨x, hx2, hnone⟩ with ⟨e, he⟩
          exact ⟨e, by simp [parse_horas, hfr, he]⟩
      · rintro ⟨e, he⟩
        simp only [parse_horas, hfr] at he
        cases hrs : parse_horas rs with
        | ok hs => rw [hrs] at he; exact absurd he (by simp)
        | error e2 =>
          rcases ih.1.mpr ⟨e2, hrs⟩ with ⟨x, hx, hb⟩
          exact ⟨x, List.mem_cons_of_mem r hx, hb⟩
      · intro hall
        rcases ih.2 (fun x hx => hall x (List.mem_cons_of_mem r hx)) with ⟨hs, hok, hlen⟩
        exact ⟨t.1 :: hs, by simp [parse_horas, hfr, hok], by simp [hlen]⟩

/-- Instance of C8 on the scenario table, whose three times all parse: the
load succeeds with three hours. -/
theorem C8_hora_estricta_witness :
    ∃ hs, parse_horas scenarioRows = Except.ok hs ∧ hs.length = scenarioRows.length :=
  (C8_hora_estricta scenarioRows).2 (by decide)

/-- C3 (counterexample): a table holding a record with month febrero loads
with no error: the record is kept with a null sort key and even appears in
the month-grouped view, against the claim that such a record is rejected or
excluded. -/
theorem C3_contraejemplo :
    load_sorted [febRow] = [febRow] ∧
    mes_num febRow = none ∧
    reuniones_por_mes [febRow] = [("febrero", 1)] :=
  ⟨by decide, by decide, by decide⟩

/-- C3 (amended): the load never raises on an unknown month and never drops
a record: the sorted table is a permutation of the input, a record whose
month is outside the fixed vocabulary keeps a null (none) sort key while
staying in the table, and the table is sorted by the null-last key order, so
null-key records come after every known-month record. -/
theorem C3_mes_desconocido_conservado (rows : List MeetingRecord) :
    List.Perm (load_sorted rows) rows ∧
    (∀ r ∈ rows,
      r.mes ∉ ["septiembre", "octubre", "noviembre", "diciembre", "enero"] →
      mes_num r = none ∧ r ∈ load_sorted rows) ∧
    (load_sorted rows).Sorted rowLe := by
  refine ⟨List.perm_insertionSort rowLe rows, ?_, List.sorted_insertionSort rowLe rows⟩
  intro r hr hout
  have hne : r.mes ≠ "septiembre" ∧ r.mes ≠ "octubre" ∧ r.mes ≠ "noviembre" ∧
      r.mes ≠ "diciembre" ∧ r.mes ≠ "enero" := by
    simpa using hout
  constructor
  · unfold mes_num meses_orden
    rw [if_neg hne.1, if_neg hne.2.1, if_neg hne.2.2.1, if_neg hne.2.2.2.1,
      if_neg hne.2.2.2.2]
  · exact (List.perm_insertionSort rowLe rows).symm.subset hr

/-- Instance of C3 as amended at the one-record febrero table. -/
theorem C3_mes_desconocido_conservado_witness :
    mes_num febRow = none ∧ febRow ∈ load_sorted [febRow] :=
  (C3_mes_desconocido_conservado [febRow]).2.1 febRow (by decide) (by decide)
